import Mathlib

/-!
Verification development for the sparkey-python binding (`src/sparkey/__init__.py`)
over a shallow embedding. The Python file is a cffi binding: the storage engine
itself (the `lib.sparkey_*` functions) is not part of the repository's sources,
so the engine operations are modelled from the specification (each such
definition carries a doc comment starting `Modelled from the spec:`); the
binding-level control flow (argument checks, return-code handling, the chunked
read loops, close/destroy logic) is translated directly from the Python source.

Byte strings (Python 2 `str`) are modelled as `List Nat`.
-/

/-- A byte string: Python 2 `str` values passed as keys and values. -/
abbrev Bytes := List Nat

namespace Compression

/-- `Compression.NONE = 0` from the source. -/
def NONE : Nat := 0

/-- `Compression.SNAPPY = 1` from the source. -/
def SNAPPY : Nat := 1

end Compression

namespace IterState

/-- `IterState.NEW = 0` from the source. -/
def NEW : Nat := 0

/-- `IterState.ACTIVE = 1` from the source. -/
def ACTIVE : Nat := 1

/-- `IterState.CLOSED = 2` from the source. -/
def CLOSED : Nat := 2

/-- `IterState.INVALID = 3` from the source. -/
def INVALID : Nat := 3

end IterState

namespace IterType

/-- `IterType.PUT = 0` from the source. -/
def PUT : Nat := 0

/-- `IterType.DELETE = 1` from the source. -/
def DELETE : Nat := 1

end IterType

/-- A record of the append-only log: `Put(key, value)` or `Delete(key)`
(spec section 3, DATA MODEL). -/
inductive LogRecord where
  | put (key value : Bytes)
  | delete (key : Bytes)
deriving DecidableEq, Repr

/-- The key carried by a log record. -/
def LogRecord.key : LogRecord → Bytes
  | .put k _ => k
  | .delete k => k

/-- The exceptions the binding can raise: `SparkeyException(msg)`, the plain
`Exception(msg)` raised by `HashReader.__init__`, a failed `assert`, and a
marker for a loop that does not terminate (used only to make fueled loops
total; unreachable in the states the claims quantify over). -/
inductive PyError where
  | sparkeyExc (msg : String)
  | genericExc (msg : String)
  | assertionError
  | nonTermination
deriving DecidableEq, Repr

/-- Modelled from the spec: engine return codes. `0` is success; nonzero codes
are errors (`sparkey_errstring` turns them into messages). We only need
success, file-not-found and an I/O error code. -/
def RC_SUCCESS : Nat := 0

/-- Modelled from the spec: the engine's file-not-found error code (nonzero). -/
def RC_FILE_NOT_FOUND : Nat := 1

/-- Modelled from the spec: the engine's I/O error code (nonzero). -/
def RC_IO_ERROR : Nat := 2

/-- Modelled from the spec: error code for a hash/log pairing that is missing
or mismatched at `sparkey_hash_open` time (nonzero). -/
def RC_HASH_HEADER : Nat := 3

/-- Modelled from the spec: a log file on disk — its header stores the
compression type and block size, followed by the flushed records
(spec section 3, LogFile). -/
structure LogFileC where
  comp : Nat
  bs : Nat
  records : List LogRecord
deriving DecidableEq, Repr

/-- The file-system view the model threads through operations: the log file,
the hash file (which, per spec section 3, is valid exactly for the log
snapshot it was built from — we store that snapshot), and a flag injecting an
underlying I/O failure into the next hash build. -/
structure World where
  logFile : Option LogFileC
  hashFile : Option (List LogRecord)
  ioFailure : Bool
deriving DecidableEq, Repr

/-- Modelled from the spec: the in-memory engine writer — records appended
since the last flush are buffered (`pending`); `flush` moves them to the
file (spec section 4.2). -/
structure EngineWriter where
  pending : List LogRecord
deriving DecidableEq, Repr

/-- Modelled from the spec: `sparkey_logwriter_create` — always creates the
file anew; fails with an invalid-argument code if compression is not NONE and
the block size is 0 (spec section 4.2 `create`). Returns
(return code, engine handle or NULL, world). -/
def sparkey_logwriter_create (comp bs : Nat) (fs : World) :
    Nat × Option EngineWriter × World :=
  if comp ≠ Compression.NONE ∧ bs = 0 then
    (RC_IO_ERROR, none, fs)
  else
    (RC_SUCCESS, some ⟨[]⟩, { fs with logFile := some ⟨comp, bs, []⟩ })

/-- Modelled from the spec: `sparkey_logwriter_append` — opens an existing log
for continued writing; fails with the file-not-found code if the file does not
exist, leaving the output handle NULL (spec section 4.2 `append`). -/
def sparkey_logwriter_append (fs : World) : Nat × Option EngineWriter × World :=
  match fs.logFile with
  | none => (RC_FILE_NOT_FOUND, none, fs)
  | some _ => (RC_SUCCESS, some ⟨[]⟩, fs)

/-- Modelled from the spec: `sparkey_logwriter_put` appends a Put record to the
writer's buffer (spec section 4.2 `put`). -/
def sparkey_logwriter_put (w : EngineWriter) (k v : Bytes) : EngineWriter :=
  ⟨w.pending ++ [.put k v]⟩

/-- Modelled from the spec: `sparkey_logwriter_delete` appends a Delete
(tombstone) record to the writer's buffer (spec section 4.2 `delete`). -/
def sparkey_logwriter_delete (w : EngineWriter) (k : Bytes) : EngineWriter :=
  ⟨w.pending ++ [.delete k]⟩

/-- Modelled from the spec: `sparkey_logwriter_flush` forces all buffered
records to the log file (spec section 4.2 `flush`). -/
def sparkey_logwriter_flush (w : EngineWriter) (fs : World) : EngineWriter × World :=
  match fs.logFile with
  | none => (⟨[]⟩, fs)
  | some lf =>
      (⟨[]⟩, { fs with logFile := some { lf with records := lf.records ++ w.pending } })

/-- Modelled from the spec: `sparkey_logwriter_close` implies a flush, then
releases the handle (spec section 4.2 `close`). On a NULL handle (a failed
create/append) it is a no-op on the file system. -/
def sparkey_logwriter_close (w : Option EngineWriter) (fs : World) : World :=
  match w with
  | none => fs
  | some ew => (sparkey_logwriter_flush ew fs).2

/-- Modelled from the spec: `sparkey_hash_write` — builds the hash index from
the log file and atomically publishes it; an underlying I/O failure aborts the
build with a nonzero code and discards the temp file, leaving any prior hash
file untouched; a missing log file is an error (spec section 4.4). -/
def sparkey_hash_write (fs : World) : Nat × World :=
  if fs.ioFailure then (RC_IO_ERROR, fs)
  else
    match fs.logFile with
    | none => (RC_FILE_NOT_FOUND, fs)
    | some lf => (RC_SUCCESS, { fs with hashFile := some lf.records })

/-- Modelled from the spec: the block decomposition of a byte string under
block compression — raw bytes are accumulated into blocks of at most `b`
uncompressed bytes, and a value may straddle block boundaries
(spec section 4.1). `chunksOf b v` splits `v` into consecutive pieces of at
most `b` bytes. -/
def chunksOf (b : Nat) (v : Bytes) : List Bytes :=
  if v = [] then []
  else if b = 0 then [v]
  else v.take b :: chunksOf b (v.drop b)
termination_by v.length
decreasing_by
  simp only [List.length_drop]
  rename_i hv hb
  have : 0 < v.length := List.length_pos.mpr hv
  omega

/-- Modelled from the spec: how a stored value is handed back by the chunked
read interface (spec section 4.1): with compression NONE each record is its
own addressable unit (one chunk); with block compression the value is served
block piece by block piece. -/
def valueChunks (comp bs : Nat) (v : Bytes) : List Bytes :=
  if comp = Compression.NONE then (if v = [] then [] else [v])
  else chunksOf bs v

/-- Modelled from the spec: the last record in the log whose key is `k` —
"only the latest operation per key determines liveness" (spec section 4.4). -/
def lastRecordFor (log : List LogRecord) (k : Bytes) : Option LogRecord :=
  log.foldl (fun acc r => if r.key = k then some r else acc) none

/-- Modelled from the spec: the value a key is live with — `some v` when the
latest operation for the key is `Put(k, v)`, `none` when it is a Delete or the
key never occurs (spec section 3, liveness flag; GLOSSARY "Liveness"). -/
def liveValue (log : List LogRecord) (k : Bytes) : Option Bytes :=
  match lastRecordFor log k with
  | some (.put _ v) => some v
  | _ => none

/-- Modelled from the spec: the open hash reader handle —
`sparkey_hash_open` validates the (hash, log) pairing, so the handle carries
the log snapshot the index was built from together with the log header's
compression settings; `corrupt` injects a detected-corruption condition into
subsequent lookups (spec sections 4.5 and 7). -/
structure ReaderHandle where
  snapshot : List LogRecord
  comp : Nat
  bs : Nat
  corrupt : Bool
deriving DecidableEq, Repr

/-- Modelled from the spec: `sparkey_hash_open` — succeeds when both files
exist and the hash file's embedded log identity matches the log file; a
missing or mismatched pairing is rejected with a nonzero code
(spec section 4.5 `open`). -/
def sparkey_hash_open (fs : World) : Nat × Option ReaderHandle :=
  match fs.hashFile, fs.logFile with
  | some snap, some lf =>
      if snap = lf.records then (RC_SUCCESS, some ⟨snap, lf.comp, lf.bs, false⟩)
      else (RC_HASH_HEADER, none)
  | _, _ => (RC_HASH_HEADER, none)

/-- What `sparkey_hash_get` leaves in the caller-supplied log iterator, as the
binding observes it through `sparkey_logiter_state`, `sparkey_logiter_type`,
`sparkey_logiter_valuelen` and the chunk calls. -/
structure HashGetRes where
  rc : Nat
  state : Nat
  rtype : Nat
  record : Option LogRecord
  valuelen : Nat
  chunks : List Bytes
deriving DecidableEq, Repr

/-- Modelled from the spec: `sparkey_hash_get` — probes the index for the key;
on a live hit it seeks the log iterator to the stored offset of the latest Put
for that key, leaving the iterator ACTIVE with the record's type and value
length exposed and the value readable in chunks; an absent or tombstoned key
leaves the iterator out of the ACTIVE state; detected corruption fails with a
nonzero code (spec sections 4.5 `get` and 7). A hash index never indexes a
Delete as a positive hit (spec section 4.5 step 2). -/
def sparkey_hash_get (h : ReaderHandle) (key : Bytes) : HashGetRes :=
  if h.corrupt then
    ⟨RC_IO_ERROR, IterState.INVALID, IterType.PUT, none, 0, []⟩
  else
    match lastRecordFor h.snapshot key with
    | some (.put k v) =>
        ⟨RC_SUCCESS, IterState.ACTIVE, IterType.PUT, some (.put k v), v.length,
          valueChunks h.comp h.bs v⟩
    | _ =>
        ⟨RC_SUCCESS, IterState.CLOSED, IterType.PUT, none, 0, []⟩

/-- Modelled from the spec: one call of `sparkey_logiter_valuechunk` — request
up to `maxlen` bytes of the current value, receive however many are available
from the currently materialized block (spec section 4.1); a zero-length result
means no more data. Returns the served bytes and the remaining chunk state. -/
def sparkey_logiter_valuechunk (st : List Bytes) (maxlen : Nat) :
    Bytes × List Bytes :=
  match st with
  | [] => ([], [])
  | c :: rest =>
      if c.length ≤ maxlen then (c, rest)
      else (c.take maxlen, c.drop maxlen :: rest)

/-- Modelled from the spec: one call of `sparkey_logiter_keychunk` — the same
chunked read contract as `sparkey_logiter_valuechunk`, applied to the current
key (spec section 4.1). -/
def sparkey_logiter_keychunk (st : List Bytes) (maxlen : Nat) :
    Bytes × List Bytes :=
  sparkey_logiter_valuechunk st maxlen

/-- The binding-level `LogWriter` object: `log` is `self._log`, which is `None`
exactly when the writer has been closed; the inner `Option` is the engine
handle the cffi out-pointer holds, `none` modelling a NULL engine pointer left
behind by a failed create/append (src lines 43-139). -/
structure LogWriter where
  log : Option (Option EngineWriter)
deriving DecidableEq, Repr

/-- `LogWriter.__init__` (src lines 75-84): allocates the handle, then calls
`sparkey_logwriter_create` or `sparkey_logwriter_append` depending on `mode`;
the engine return code of either call is discarded; any other mode raises
`SparkeyException`. -/
def LogWriter.init (mode : String) (comp bs : Nat) (fs : World) :
    Except PyError (LogWriter × World) :=
  if mode = "NEW" then
    let r := sparkey_logwriter_create comp bs fs
    .ok (⟨some r.2.1⟩, r.2.2)
  else if mode = "APPEND" then
    let r := sparkey_logwriter_append fs
    .ok (⟨some r.2.1⟩, r.2.2)
  else
    .error (.sparkeyExc "Invalid mode, expected NEW or APPEND")

/-- `LogWriter.close` (src lines 89-97): if `self._log is not None`, calls the
engine close (which flushes) and sets `self._log = None`; otherwise a no-op. -/
def LogWriter.close (w : LogWriter) (fs : World) : LogWriter × World :=
  match w.log with
  | some h => (⟨none⟩, sparkey_logwriter_close h fs)
  | none => (w, fs)

/-- `LogWriter._assert_open` (src lines 99-101): raises
`SparkeyException("Writer is closed")` when `self._log is None`. -/
def LogWriter.assert_open (w : LogWriter) : Except PyError Unit :=
  match w.log with
  | none => .error (.sparkeyExc "Writer is closed")
  | some _ => .ok ()

/-- `LogWriter.flush` (src lines 103-106): `_assert_open`, then the engine
flush on `self._log[0]`. On a NULL engine handle the call is modelled as a
no-op. -/
def LogWriter.flush (w : LogWriter) (fs : World) : Except PyError (LogWriter × World) :=
  match w.log with
  | none => .error (.sparkeyExc "Writer is closed")
  | some none => .ok (w, fs)
  | some (some ew) =>
      let r := sparkey_logwriter_flush ew fs
      .ok (⟨some (some r.1)⟩, r.2)

/-- `LogWriter.put` (src lines 112-124): `_assert_open`, the two `type(...) != str`
checks (keys and values are byte strings in this model, so they pass), then
the engine put on `self._log[0]`. -/
def LogWriter.put (w : LogWriter) (k v : Bytes) : Except PyError LogWriter :=
  match w.log with
  | none => .error (.sparkeyExc "Writer is closed")
  | some none => .ok w
  | some (some ew) => .ok ⟨some (some (sparkey_logwriter_put ew k v))⟩

/-- `LogWriter.delete` (src lines 130-139): `_assert_open`, the key type
check, then the engine delete on `self._log[0]`. -/
def LogWriter.delete (w : LogWriter) (k : Bytes) : Except PyError LogWriter :=
  match w.log with
  | none => .error (.sparkeyExc "Writer is closed")
  | some none => .ok w
  | some (some ew) => .ok ⟨some (some (sparkey_logwriter_delete ew k))⟩

/-- `writehash` (src lines 245-260): a single call to `sparkey_hash_write`;
the engine return code is discarded, so the function returns normally whatever
the engine reported — it can never raise. -/
def writehash (fs : World) : Except PyError World :=
  .ok (sparkey_hash_write fs).2

/-- `HashReader.__init__` (src lines 266-282): calls `sparkey_hash_open` and
raises a plain `Exception` with the engine error string when the return code
is nonzero; otherwise the open handle is retained. -/
def HashReader.init (fs : World) : Except PyError ReaderHandle :=
  let r := sparkey_hash_open fs
  if r.1 ≠ 0 then .error (.genericExc "sparkey_errstring")
  else
    match r.2 with
    | some h => .ok h
    | none => .error (.genericExc "sparkey_errstring")

/-- The test `blen == 0` of the chunk loops (src lines 331 and 366): `blen` is
the freshly allocated cffi out-pointer, and a cffi pointer cdata never
compares equal to a Python integer, so the test is False on every iteration,
irrespective of the chunk length the engine stored in `blen[0]`. -/
def blen_eq_zero : Bool := false

/-- The loop of `chunk_with_func` (src lines 360-370), with explicit fuel:
while `maxlen > 0`, fetch a chunk, return `res` if `blen == 0` (a test that is
always False, see `blen_eq_zero`), append the chunk to `res` and subtract its
length from `maxlen`. `none` models the loop never terminating within the
given fuel. -/
def chunk_loop (func : List Bytes → Nat → Bytes × List Bytes) :
    Nat → List Bytes → Nat → Bytes → Option Bytes
  | 0, _, _, _ => none
  | fuel + 1, st, maxlen, res =>
    if 0 < maxlen then
      let r := func st maxlen
      if blen_eq_zero then some res
      else chunk_loop func fuel r.2 (maxlen - r.1.length) (res ++ r.1)
    else some res

/-- `chunk_with_func` (src lines 360-370): starts the loop with `res = ""`.
The chunk state `st` models the data reachable through `(iterator, log)`. -/
def chunk_with_func (func : List Bytes → Nat → Bytes × List Bytes)
    (fuel maxlen : Nat) (st : List Bytes) : Option Bytes :=
  chunk_loop func fuel st maxlen []

/-- `key_chunk` (src lines 373-374): `chunk_with_func` partially applied to
the engine key chunk call. -/
def key_chunk (fuel maxlen : Nat) (st : List Bytes) : Option Bytes :=
  chunk_with_func sparkey_logiter_keychunk fuel maxlen st

/-- `value_chunk` (src lines 376-377): `chunk_with_func` partially applied to
the engine value chunk call. -/
def value_chunk (fuel maxlen : Nat) (st : List Bytes) : Option Bytes :=
  chunk_with_func sparkey_logiter_valuechunk fuel maxlen st

/-- `HashReader._value_chunk` (src lines 324-335): the same loop as
`chunk_with_func`, duplicated in the source on the reader's own iterator with
the engine value chunk call, starting from `res = ""`. -/
def HashReader.value_chunk_impl (fuel maxlen : Nat) (st : List Bytes) : Option Bytes :=
  chunk_loop sparkey_logiter_valuechunk fuel st maxlen []

/-- `HashReader.get` (src lines 338-354): `sparkey_hash_get`, raise
`SparkeyException` on a nonzero return code, return `None` when the iterator
is not ACTIVE, `assert` the entry type is PUT, then read `valuelen` bytes via
`_value_chunk`. The fuel `valuelen + 1` suffices for the loop whenever every
chunk the engine serves is nonempty (each iteration then strictly decreases
`maxlen`), which holds for every reader produced by a build; `nonTermination`
models the Python loop running forever. -/
def HashReader.get (h : ReaderHandle) (key : Bytes) : Except PyError (Option Bytes) :=
  let r := sparkey_hash_get h key
  if r.rc ≠ 0 then .error (.sparkeyExc "sparkey_errstring")
  else if r.state ≠ IterState.ACTIVE then .ok none
  else if r.rtype ≠ IterType.PUT then .error .assertionError
  else
    match HashReader.value_chunk_impl (r.valuelen + 1) r.valuelen r.chunks with
    | some v => .ok (some v)
    | none => .error .nonTermination

/-- Modelled from the spec: the sequence of live slots the hash-index
traversal (`sparkey_logiter_hashnext`) visits — one slot per live key, in a
fixed index order (modelled as first-occurrence order of the keys), each
resolving to the key's live value; tombstoned and superseded keys are skipped
(spec section 4.5 `iterate`). -/
def liveEntries (log : List LogRecord) : List (Bytes × Bytes) :=
  ((log.map LogRecord.key).dedup).filterMap
    (fun k => (liveValue log k).map (fun v => (k, v)))

/-- The body of the `iterate_items` generator loop (src lines 386-394), one
live slot at a time: reassemble the key with `key_chunk` and the value with
`value_chunk` and yield the pair. `none` models one of the chunk loops
running forever. -/
def collectItems (comp bs : Nat) : List (Bytes × Bytes) → Option (List (Bytes × Bytes))
  | [] => some []
  | kv :: rest =>
    match key_chunk (kv.1.length + 1) kv.1.length (valueChunks comp bs kv.1),
          value_chunk (kv.2.length + 1) kv.2.length (valueChunks comp bs kv.2),
          collectItems comp bs rest with
    | some k2, some v2, some out => some ((k2, v2) :: out)
    | _, _, _ => none

/-- `iterate_items` (src lines 380-395): walks the hash index via
`sparkey_logiter_hashnext`, visiting each live slot, and yields each resolved
(key, value) pair; the generator's yielded pairs are collected into a list. -/
def iterate_items (h : ReaderHandle) : Option (List (Bytes × Bytes)) :=
  collectItems h.comp h.bs (liveEntries h.snapshot)

/-- The binding-level `HashWriter` object: `logwriter` is `self._logwriter`,
`None` after `destroy` (src lines 398-535). The cached `_reader`, `_hashfile`
and `_logfile` names are not modelled separately: the model's `World` carries
the single (hash, log) file pair. -/
structure HashWriter where
  logwriter : Option LogWriter
deriving DecidableEq, Repr

/-- `HashWriter.__init__` (src lines 399-426): constructs the underlying
`LogWriter` and records the file names. -/
def HashWriter.init (mode : String) (comp bs : Nat) (fs : World) :
    Except PyError (HashWriter × World) :=
  (LogWriter.init mode comp bs fs).map (fun r => (⟨some r.1⟩, r.2))

/-- `HashWriter.put` (src lines 436-444): delegates to `self._logwriter.put`
directly (note: without `_assert_open`; on a destroyed writer Python raises
`AttributeError` on the `None` attribute access). -/
def HashWriter.put (hw : HashWriter) (k v : Bytes) : Except PyError HashWriter :=
  match hw.logwriter with
  | none => .error (.genericExc "AttributeError: NoneType")
  | some lw => (lw.put k v).map (fun lw2 => ⟨some lw2⟩)

/-- `HashWriter.delete` (src lines 450-457): `_assert_open`, then
`self._logwriter.delete`. -/
def HashWriter.delete (hw : HashWriter) (k : Bytes) : Except PyError HashWriter :=
  match hw.logwriter with
  | none => .error (.sparkeyExc "Writer is closed")
  | some lw => (lw.delete k).map (fun lw2 => ⟨some lw2⟩)

/-- `HashWriter.flush` (src lines 459-463): `_assert_open`, flush the log
writer, then `writehash` to rebuild the hash file. -/
def HashWriter.flush (hw : HashWriter) (fs : World) :
    Except PyError (HashWriter × World) :=
  match hw.logwriter with
  | none => .error (.sparkeyExc "Writer is closed")
  | some lw => do
      let r ← lw.flush fs
      let fs2 ← writehash r.2
      pure (⟨some r.1⟩, fs2)

/-- `HashWriter.destroy` (src lines 468-479): closes the underlying
`LogWriter` (if any) via `LogWriter.close`, then clears the reader and the
file names; it never calls `flush` itself and never rebuilds the hash file. -/
def HashWriter.destroy (hw : HashWriter) (fs : World) : HashWriter × World :=
  match hw.logwriter with
  | none => (⟨none⟩, fs)
  | some lw =>
      let r := lw.close fs
      (⟨none⟩, r.2)

/-- `HashWriter.close` (src lines 485-492): if the writer is open, `flush`
(which rebuilds the hash) then `destroy`. -/
def HashWriter.close (hw : HashWriter) (fs : World) :
    Except PyError (HashWriter × World) :=
  match hw.logwriter with
  | none => .ok (hw, fs)
  | some _ => do
      let r ← hw.flush fs
      pure (HashWriter.destroy r.1 r.2)

/-- A user-level write operation against a writer, used to state the
round-trip claims over whole write sessions. -/
inductive WriterOp where
  | putOp (k v : Bytes)
  | delOp (k : Bytes)
deriving DecidableEq, Repr

/-- The log record a write operation appends. -/
def WriterOp.toRecord : WriterOp → LogRecord
  | .putOp k v => .put k v
  | .delOp k => .delete k

/-- The empty file system: no log file, no hash file, no injected I/O
failure. -/
def World.init : World := ⟨none, none, false⟩

/-- Applies a list of write operations to a `HashWriter` through the
binding's `put` and `delete`. -/
def HashWriter.runOps (hw : HashWriter) : List WriterOp → Except PyError HashWriter
  | [] => .ok hw
  | op :: rest => do
      let hw2 ←
        match op with
        | .putOp k v => hw.put k v
        | .delOp k => hw.delete k
      HashWriter.runOps hw2 rest

/-- The end-to-end write session of the round-trip claims: create a
`HashWriter` in NEW mode on an empty file system, apply the operations via
`put`/`delete`, `flush` (which also rebuilds the hash index), and open a
`HashReader` on the resulting (hash, log) pair. -/
def buildScript (comp bs : Nat) (ops : List WriterOp) :
    Except PyError ReaderHandle := do
  let r ← HashWriter.init "NEW" comp bs World.init
  let hw ← HashWriter.runOps r.1 ops
  let r2 ← hw.flush r.2
  HashReader.init r2.2

/-! ## Helper lemmas -/

theorem chunksOf_flatten (b : Nat) (hb : 0 < b) (v : Bytes) :
    (chunksOf b v).flatten = v := by
  by_cases hv : v = []
  · subst hv
    rw [chunksOf]
    simp
  · have hb0 : ¬b = 0 := by omega
    rw [chunksOf, if_neg hv, if_neg hb0]
    have ih := chunksOf_flatten b hb (v.drop b)
    simp only [List.flatten_cons, ih, List.take_append_drop]
termination_by v.length
decreasing_by
  simp only [List.length_drop]
  have : 0 < v.length := List.length_pos.mpr hv
  omega

theorem chunksOf_ne_nil (b : Nat) (hb : 0 < b) (v : Bytes) :
    ∀ c ∈ chunksOf b v, c ≠ [] := by
  by_cases hv : v = []
  · subst hv
    rw [chunksOf]
    simp
  · have hb0 : ¬b = 0 := by omega
    rw [chunksOf, if_neg hv, if_neg hb0]
    intro c hc
    rcases List.mem_cons.mp hc with hc | hc
    · subst hc
      have hlen : 0 < (v.take b).length := by
        rw [List.length_take]
        have := List.length_pos.mpr hv
        omega
      exact List.ne_nil_of_length_pos hlen
    · exact chunksOf_ne_nil b hb (v.drop b) c hc
termination_by v.length
decreasing_by
  simp only [List.length_drop]
  have : 0 < v.length := List.length_pos.mpr hv
  omega

/-- A compression setting accepted by the round-trip claims: either NONE, or
SNAPPY with a positive block size. -/
def ValidComp (comp bs : Nat) : Prop :=
  comp = Compression.NONE ∨ (comp = Compression.SNAPPY ∧ 0 < bs)

theorem valueChunks_flatten (comp bs : Nat) (h : ValidComp comp bs) (v : Bytes) :
    (valueChunks comp bs v).flatten = v := by
  rcases h with h | ⟨h, hbs⟩
  · rw [valueChunks, if_pos h]
    by_cases hv : v = [] <;> simp [hv]
  · rw [valueChunks, if_neg (by simp [h, Compression.SNAPPY, Compression.NONE])]
    exact chunksOf_flatten bs hbs v

theorem valueChunks_ne_nil (comp bs : Nat) (h : ValidComp comp bs) (v : Bytes) :
    ∀ c ∈ valueChunks comp bs v, c ≠ [] := by
  rcases h with h | ⟨h, hbs⟩
  · rw [valueChunks, if_pos h]
    by_cases hv : v = [] <;> simp [hv]
  · rw [valueChunks, if_neg (by simp [h, Compression.SNAPPY, Compression.NONE])]
    exact chunksOf_ne_nil bs hbs v

theorem length_le_flatten_length (chunks : List Bytes)
    (h : ∀ c ∈ chunks, c ≠ []) : chunks.length ≤ chunks.flatten.length := by
  induction chunks with
  | nil => simp
  | cons c rest ih =>
      have hc : c ≠ [] := h c (List.mem_cons_self c rest)
      have h1 : 0 < c.length := List.length_pos.mpr hc
      have h2 := ih (fun d hd => h d (List.mem_cons_of_mem c hd))
      simp only [List.length_cons, List.flatten_cons, List.length_append]
      omega

/-- The chunk loop of the binding accumulates exactly the concatenation of the
engine's chunks when every chunk is nonempty and the requested length is the
total length, for any fuel exceeding the number of chunks. -/
theorem chunk_loop_flatten (chunks : List Bytes) (h : ∀ c ∈ chunks, c ≠ [])
    (res : Bytes) (fuel : Nat) (hfuel : chunks.length < fuel) :
    chunk_loop sparkey_logiter_valuechunk fuel chunks chunks.flatten.length res =
      some (res ++ chunks.flatten) := by
  induction chunks generalizing res fuel with
  | nil =>
      match fuel, hfuel with
      | fuel + 1, _ =>
          rw [chunk_loop]
          simp
  | cons c rest ih =>
      match fuel, hfuel with
      | fuel + 1, hfuel =>
          have hc : c ≠ [] := h c (List.mem_cons_self c rest)
          have hcpos : 0 < c.length := List.length_pos.mpr hc
          have hmax : 0 < (c :: rest).flatten.length := by
            simp only [List.flatten_cons, List.length_append]
            omega
          rw [chunk_loop, if_pos hmax]
          simp only [blen_eq_zero, if_false]
          have hle : c.length ≤ (c :: rest).flatten.length := by
            simp only [List.flatten_cons, List.length_append]
            omega
          have hchunk :
              sparkey_logiter_valuechunk (c :: rest) (c :: rest).flatten.length =
                (c, rest) := by
            rw [sparkey_logiter_valuechunk, if_pos hle]
          rw [hchunk]
          have hrest : (c :: rest).flatten.length - c.length = rest.flatten.length := by
            simp only [List.flatten_cons, List.length_append]
            omega
          rw [hrest]
          have := ih (fun d hd => h d (List.mem_cons_of_mem c hd)) (res ++ c) fuel
            (by simpa using Nat.lt_of_succ_lt_succ hfuel)
          rw [this]
          simp [List.append_assoc]

/-- Reading back a stored byte string through the binding chunk loop, with the
fuel `length + 1` the binding's callers have available, yields the string
exactly. -/
theorem chunk_loop_reads_exact (comp bs : Nat) (h : ValidComp comp bs) (v : Bytes) :
    chunk_loop sparkey_logiter_valuechunk (v.length + 1) (valueChunks comp bs v)
      v.length [] = some v := by
  have hflat := valueChunks_flatten comp bs h v
  have hne := valueChunks_ne_nil comp bs h v
  have hlen : (valueChunks comp bs v).length ≤ v.length := by
    have h2 := length_le_flatten_length (valueChunks comp bs v) hne
    rw [hflat] at h2
    exact h2
  have hmain := chunk_loop_flatten (valueChunks comp bs v) hne []
    (v.length + 1) (by omega)
  rw [hflat] at hmain
  simpa using hmain

theorem value_chunk_impl_reads_exact (comp bs : Nat) (h : ValidComp comp bs)
    (v : Bytes) :
    HashReader.value_chunk_impl (v.length + 1) v.length (valueChunks comp bs v) =
      some v := by
  rw [HashReader.value_chunk_impl]
  exact chunk_loop_reads_exact comp bs h v

theorem keychunk_eq_valuechunk :
    sparkey_logiter_keychunk = sparkey_logiter_valuechunk := by
  funext st maxlen
  rw [sparkey_logiter_keychunk]

theorem key_chunk_reads_exact (comp bs : Nat) (h : ValidComp comp bs) (v : Bytes) :
    key_chunk (v.length + 1) v.length (valueChunks comp bs v) = some v := by
  rw [key_chunk, chunk_with_func, keychunk_eq_valuechunk]
  exact chunk_loop_reads_exact comp bs h v

theorem value_chunk_reads_exact (comp bs : Nat) (h : ValidComp comp bs) (v : Bytes) :
    value_chunk (v.length + 1) v.length (valueChunks comp bs v) = some v := by
  rw [value_chunk, chunk_with_func]
  exact chunk_loop_reads_exact comp bs h v

theorem lastRecordFor_aux (k : Bytes) (r : LogRecord) (log : List LogRecord) :
    ∀ acc : Option LogRecord, (∀ s, acc = some s → s.key = k) →
      log.foldl (fun acc2 r2 => if r2.key = k then some r2 else acc2) acc = some r →
      r.key = k := by
  induction log with
  | nil =>
      intro acc hacc h
      exact hacc r h
  | cons a rest ih =>
      intro acc hacc h
      rw [List.foldl_cons] at h
      refine ih _ ?_ h
      intro s hs
      by_cases ha : a.key = k
      · rw [if_pos ha] at hs
        cases hs
        exact ha
      · rw [if_neg ha] at hs
        exact hacc s hs

/-- The latest record the engine resolves for a key indeed carries that key. -/
theorem lastRecordFor_key (log : List LogRecord) (k : Bytes) (r : LogRecord)
    (h : lastRecordFor log k = some r) : r.key = k :=
  lastRecordFor_aux k r log none (fun s hs => by cases hs) h

/-- Every pair the live-slot traversal yields is a key together with its live
value. -/
theorem liveEntries_mem (log : List LogRecord) (p : Bytes × Bytes)
    (h : p ∈ liveEntries log) : liveValue log p.1 = some p.2 := by
  rw [liveEntries] at h
  rcases List.mem_filterMap.mp h with ⟨k, _, hk⟩
  rcases Option.map_eq_some'.mp hk with ⟨v, hv, hp⟩
  subst hp
  exact hv

/-- A tombstoned key is never among the live entries. -/
theorem liveEntries_not_mem_of_dead (log : List LogRecord) (k : Bytes)
    (h : liveValue log k = none) :
    ∀ p ∈ liveEntries log, p.1 ≠ k := by
  intro p hp hk
  have := liveEntries_mem log p hp
  rw [hk, h] at this
  cases this

/-- With a valid compression setting, the chunk reassembly of `iterate_items`
returns every live slot's pair verbatim. -/
theorem collectItems_id (comp bs : Nat) (h : ValidComp comp bs)
    (entries : List (Bytes × Bytes)) :
    collectItems comp bs entries = some entries := by
  induction entries with
  | nil => rw [collectItems]
  | cons kv rest ih =>
      rw [collectItems, key_chunk_reads_exact comp bs h kv.1,
        value_chunk_reads_exact comp bs h kv.2, ih]

/-- The `HashReader.get` of the binding returns the live value of a key whose
latest log operation is a Put, on an uncorrupted reader. -/
theorem hashReader_get_live (comp bs : Nat) (hv : ValidComp comp bs)
    (snap : List LogRecord) (key value : Bytes)
    (hlast : lastRecordFor snap key = some (.put key value)) :
    HashReader.get ⟨snap, comp, bs, false⟩ key = .ok (some value) := by
  rw [HashReader.get]
  simp only [sparkey_hash_get, hlast]
  simp only [if_false, Bool.false_eq_true]
  rw [if_neg (by simp [RC_SUCCESS])]
  rw [if_neg (by simp)]
  rw [if_neg (by simp)]
  simp only [value_chunk_impl_reads_exact comp bs hv value]

/-- Running a list of operations through an open `HashWriter` whose engine
buffer holds `p` appends exactly the corresponding records. -/
theorem runOps_ok (ops : List WriterOp) (p : List LogRecord) :
    HashWriter.runOps ⟨some ⟨some (some ⟨p⟩)⟩⟩ ops =
      .ok ⟨some ⟨some (some ⟨p ++ ops.map WriterOp.toRecord⟩)⟩⟩ := by
  induction ops generalizing p with
  | nil => simp [HashWriter.runOps]
  | cons op rest ih =>
      cases op with
      | putOp k v =>
          rw [HashWriter.runOps]
          simp only [HashWriter.put, LogWriter.put, sparkey_logwriter_put,
            Except.map, Bind.bind, Except.bind]
          rw [ih (p ++ [LogRecord.put k v])]
          simp [WriterOp.toRecord]
      | delOp k =>
          rw [HashWriter.runOps]
          simp only [HashWriter.delete, LogWriter.delete, sparkey_logwriter_delete,
            Except.map, Bind.bind, Except.bind]
          rw [ih (p ++ [LogRecord.delete k])]
          simp [WriterOp.toRecord]

/-- The end-to-end write session succeeds on a valid compression setting and
produces a reader over exactly the records the operations appended. -/
theorem buildScript_ok (comp bs : Nat) (hv : ValidComp comp bs)
    (ops : List WriterOp) :
    buildScript comp bs ops = .ok ⟨ops.map WriterOp.toRecord, comp, bs, false⟩ := by
  have hcreate : sparkey_logwriter_create comp bs World.init =
      (RC_SUCCESS, some ⟨[]⟩, ⟨some ⟨comp, bs, []⟩, none, false⟩) := by
    rw [sparkey_logwriter_create, if_neg]
    · rfl
    · rcases hv with h | ⟨h, hbs⟩
      · simp [h]
      · simp
        intro
        omega
  rw [buildScript]
  simp only [HashWriter.init, LogWriter.init, if_pos rfl, hcreate, Except.map,
    Bind.bind, Except.bind, if_true]
  rw [runOps_ok ops []]
  simp only [List.nil_append]
  rw [HashWriter.flush]
  simp only [LogWriter.flush, sparkey_logwriter_flush, Bind.bind, Except.bind,
    writehash, sparkey_hash_write]
  simp only [Bool.false_eq_true, if_false]
  simp [HashReader.init, sparkey_hash_open, RC_SUCCESS, pure, Except.pure]

/-- `HashReader.get` returns `None` for a key that is absent or tombstoned in
the indexed snapshot, on an uncorrupted reader. -/
theorem hashReader_get_absent (comp bs : Nat) (snap : List LogRecord) (key : Bytes)
    (h : liveValue snap key = none) :
    HashReader.get ⟨snap, comp, bs, false⟩ key = .ok none := by
  rw [liveValue] at h
  cases hl : lastRecordFor snap key with
  | none =>
      simp [HashReader.get, sparkey_hash_get, hl, RC_SUCCESS,
        IterState.CLOSED, IterState.ACTIVE]
  | some r =>
      cases r with
      | put k v =>
          rw [hl] at h
          cases h
      | delete k =>
          simp [HashReader.get, sparkey_hash_get, hl, RC_SUCCESS,
            IterState.CLOSED, IterState.ACTIVE]

/-- With a valid compression setting, `iterate_items` on an uncorrupted reader
yields exactly the live slots of the snapshot. -/
theorem iterate_items_eq (comp bs : Nat) (hv : ValidComp comp bs)
    (snap : List LogRecord) :
    iterate_items ⟨snap, comp, bs, false⟩ = some (liveEntries snap) := by
  rw [iterate_items]
  exact collectItems_id comp bs hv (liveEntries snap)

/-! ## Claim theorems -/

/-- C1: for every (key, value) pair written via `put` in a write session and
flushed (with the hash index rebuilt), `HashReader.get key` on the resulting
(hash, log) pair returns exactly `value`, byte for byte, for every compression
setting (NONE, or SNAPPY with any positive block size). "Written via put" is
read, consistently with the tombstone claim, as the pair being the key's
latest operation of the session. -/
theorem C1_round_trip_get (comp bs : Nat) (ops : List WriterOp) (key value : Bytes)
    (hcomp : ValidComp comp bs)
    (hlast : lastRecordFor (ops.map WriterOp.toRecord) key =
      some (.put key value)) :
    ∃ h, buildScript comp bs ops = .ok h ∧
      HashReader.get h key = .ok (some value) :=
  ⟨_, buildScript_ok comp bs hcomp ops,
    hashReader_get_live comp bs hcomp _ key value hlast⟩

/-- Witness for C1 at a concrete session: SNAPPY with block size 2, one put of
a five-byte value. -/
theorem C1_round_trip_get_witness :
    ∃ h, buildScript Compression.SNAPPY 2 [.putOp [1] [2, 3, 4, 5, 6]] = .ok h ∧
      HashReader.get h [1] = .ok (some [2, 3, 4, 5, 6]) :=
  C1_round_trip_get Compression.SNAPPY 2 [.putOp [1] [2, 3, 4, 5, 6]] [1]
    [2, 3, 4, 5, 6] (Or.inr ⟨rfl, by decide⟩) (by decide)

/-- C2: if `delete(key)` is appended after a prior `put(key, v)` and both
precede the flush/rebuild, then `HashReader.get key` returns `None` and `key`
does not appear among the pairs yielded by iterating the reader. -/
theorem C2_tombstone (comp bs : Nat) (ops : List WriterOp) (key v : Bytes)
    (hcomp : ValidComp comp bs)
    (_hput : LogRecord.put key v ∈ ops.map WriterOp.toRecord)
    (hlast : lastRecordFor (ops.map WriterOp.toRecord) key =
      some (.delete key)) :
    ∃ h, buildScript comp bs ops = .ok h ∧
      HashReader.get h key = .ok none ∧
      ∃ items, iterate_items h = some items ∧ ∀ p ∈ items, p.1 ≠ key := by
  have hdead : liveValue (ops.map WriterOp.toRecord) key = none := by
    rw [liveValue, hlast]
  refine ⟨_, buildScript_ok comp bs hcomp ops, ?_, ?_⟩
  · exact hashReader_get_absent comp bs _ key hdead
  · exact ⟨_, iterate_items_eq comp bs hcomp _,
      liveEntries_not_mem_of_dead _ key hdead⟩

/-- Witness for C2 at a concrete session: put then delete of the same key,
with an unrelated surviving key. -/
theorem C2_tombstone_witness :
    ∃ h, buildScript Compression.NONE 0
        [.putOp [1] [9], .putOp [5] [6], .delOp [1]] = .ok h ∧
      HashReader.get h [1] = .ok none ∧
      ∃ items, iterate_items h = some items ∧ ∀ p ∈ items, p.1 ≠ [1] :=
  C2_tombstone Compression.NONE 0 [.putOp [1] [9], .putOp [5] [6], .delOp [1]]
    [1] [9] (Or.inl rfl) (by decide) (by decide)

/-- C3: the claim states that constructing a `LogWriter` in APPEND mode on a
nonexistent file raises `NotFound`; the binding instead discards the return
code of `sparkey_logwriter_append`, so on a file system with no log file the
constructor returns normally with a writer that `_assert_open` regards as
open, even though the engine reported file-not-found. -/
theorem C3_append_missing_returns_writer :
    LogWriter.init "APPEND" 0 0 ⟨none, none, false⟩ =
      .ok (⟨some none⟩, ⟨none, none, false⟩) ∧
    (sparkey_logwriter_append ⟨none, none, false⟩).1 = RC_FILE_NOT_FOUND ∧
    LogWriter.assert_open ⟨some none⟩ = .ok () := by
  refine ⟨?_, rfl, rfl⟩
  rfl

/-- C4: every call to `put`, `delete` or `flush` on a `LogWriter` on which
`close` has been called fails with `SparkeyException("Writer is closed")`,
deterministically — for every closed writer, every argument and every file
system state. -/
theorem C4_closed_writer_ops_fail (w : LogWriter) (fs fs2 : World) (k v : Bytes) :
    ((LogWriter.close w fs).1).log = none ∧
    ((LogWriter.close w fs).1).put k v =
      .error (.sparkeyExc "Writer is closed") ∧
    ((LogWriter.close w fs).1).delete k =
      .error (.sparkeyExc "Writer is closed") ∧
    ((LogWriter.close w fs).1).flush fs2 =
      .error (.sparkeyExc "Writer is closed") := by
  cases w with
  | mk log =>
      cases log with
      | none =>
          simp [LogWriter.close, LogWriter.put, LogWriter.delete, LogWriter.flush]
      | some h =>
          simp [LogWriter.close, LogWriter.put, LogWriter.delete, LogWriter.flush]

/-- C5: `LogWriter.close` flushes all pending buffered records to the log file
before releasing the handle, and close is idempotent — closing an
already-closed writer is a no-op that raises no error and changes no state. -/
theorem C5_close_flushes_and_idempotent (ew : EngineWriter) (lf : LogFileC)
    (hf : Option (List LogRecord)) (io : Bool) (w : LogWriter) (fs : World) :
    LogWriter.close ⟨some (some ew)⟩ ⟨some lf, hf, io⟩ =
      (⟨none⟩, ⟨some { lf with records := lf.records ++ ew.pending }, hf, io⟩) ∧
    LogWriter.close (LogWriter.close w fs).1 (LogWriter.close w fs).2 =
      LogWriter.close w fs := by
  constructor
  · simp [LogWriter.close, sparkey_logwriter_close, sparkey_logwriter_flush]
  · cases w with
    | mk log =>
        cases log with
        | none => simp [LogWriter.close]
        | some h => simp [LogWriter.close]

/-- C6: the claim states that an engine I/O failure during `writehash` is
reported to the caller as an error while the prior hash file stays untouched;
the engine does report the failure and leaves the hash file untouched, but the
binding discards the return code of `sparkey_hash_write`, so `writehash`
returns normally as if it succeeded. -/
theorem C6_writehash_swallows_io_error :
    (sparkey_hash_write ⟨some ⟨0, 0, [LogRecord.put [1] [2]]⟩, some [], true⟩).1 =
      RC_IO_ERROR ∧
    writehash ⟨some ⟨0, 0, [LogRecord.put [1] [2]]⟩, some [], true⟩ =
      .ok ⟨some ⟨0, 0, [LogRecord.put [1] [2]]⟩, some [], true⟩ :=
  ⟨rfl, rfl⟩

/-- C7: on every open `HashReader` and every key that is absent or tombstoned
in the indexed snapshot, `get` returns `None` — an empty result, not an
exception — while a reader in a detected-corruption state still raises a hard
`SparkeyException` failure. -/
theorem C7_absent_key_returns_none (h : ReaderHandle) (key : Bytes) :
    (h.corrupt = false → liveValue h.snapshot key = none →
      HashReader.get h key = .ok none) ∧
    (h.corrupt = true →
      HashReader.get h key = .error (.sparkeyExc "sparkey_errstring")) := by
  constructor
  · intro hcor habs
    cases h with
    | mk snap comp bs corrupt =>
        cases hcor
        exact hashReader_get_absent comp bs snap key habs
  · intro hcor
    simp [HashReader.get, sparkey_hash_get, hcor, RC_IO_ERROR]

/-- Witness for C7: an uncorrupted reader over an empty snapshot returns
`None` for a missing key; the corrupted reader raises. -/
theorem C7_absent_key_returns_none_witness :
    HashReader.get ⟨[], 0, 0, false⟩ [1] = .ok none ∧
    HashReader.get ⟨[], 0, 0, true⟩ [1] =
      .error (.sparkeyExc "sparkey_errstring") :=
  ⟨(C7_absent_key_returns_none ⟨[], 0, 0, false⟩ [1]).1 rfl (by decide),
    (C7_absent_key_returns_none ⟨[], 0, 0, true⟩ [1]).2 rfl⟩

/-- C8: whenever `HashReader.get` finds a candidate entry whose iterator state
is ACTIVE, the resolved record is a Put of the queried key — never a Delete —
so the `assert` in `get` that the entry type equals PUT never fails, for any
reader state and key. -/
theorem C8_active_hit_is_put (h : ReaderHandle) (key : Bytes) :
    ((sparkey_hash_get h key).state = IterState.ACTIVE →
      (sparkey_hash_get h key).rtype = IterType.PUT ∧
      ∃ v, (sparkey_hash_get h key).record = some (.put key v)) ∧
    HashReader.get h key ≠ .error PyError.assertionError := by
  by_cases hcor : h.corrupt
  · constructor
    · intro hstate
      rw [sparkey_hash_get, if_pos hcor] at hstate
      simp [IterState.INVALID, IterState.ACTIVE] at hstate
    · simp [HashReader.get, sparkey_hash_get, hcor, RC_IO_ERROR]
  · cases hl : lastRecordFor h.snapshot key with
    | none =>
        constructor
        · intro hstate
          rw [sparkey_hash_get, if_neg hcor, hl] at hstate
          simp [IterState.CLOSED, IterState.ACTIVE] at hstate
        · simp [HashReader.get, sparkey_hash_get, hcor, hl, RC_SUCCESS,
            IterState.CLOSED, IterState.ACTIVE]
    | some r =>
        cases r with
        | put k v =>
            have hk : k = key := by
              have := lastRecordFor_key h.snapshot key _ hl
              simpa [LogRecord.key] using this
            subst hk
            constructor
            · intro _
              refine ⟨?_, v, ?_⟩
              · rw [sparkey_hash_get, if_neg hcor, hl]
              · rw [sparkey_hash_get, if_neg hcor, hl]
            · rw [HashReader.get]
              simp only [sparkey_hash_get, if_neg hcor, hl]
              rw [if_neg (by simp [RC_SUCCESS])]
              rw [if_neg (by simp)]
              rw [if_neg (by simp)]
              cases hvc : HashReader.value_chunk_impl (v.length + 1) v.length
                  (valueChunks h.comp h.bs v) with
              | none => simp [hvc]
              | some vv => simp [hvc]
        | delete k =>
            constructor
            · intro hstate
              rw [sparkey_hash_get, if_neg hcor, hl] at hstate
              simp [IterState.CLOSED, IterState.ACTIVE] at hstate
            · simp [HashReader.get, sparkey_hash_get, hcor, hl, RC_SUCCESS,
                IterState.CLOSED, IterState.ACTIVE]

/-- Witness for C8: a reader whose snapshot holds one Put makes the lookup
ACTIVE, and the resolved record is that Put. -/
theorem C8_active_hit_is_put_witness :
    ((sparkey_hash_get ⟨[.put [1] [2]], 0, 0, false⟩ [1]).rtype = IterType.PUT ∧
      ∃ v, (sparkey_hash_get ⟨[.put [1] [2]], 0, 0, false⟩ [1]).record =
        some (.put [1] v)) ∧
    HashReader.get ⟨[.put [1] [2]], 0, 0, false⟩ [1] ≠
      .error PyError.assertionError :=
  ⟨(C8_active_hit_is_put ⟨[.put [1] [2]], 0, 0, false⟩ [1]).1 (by decide),
    (C8_active_hit_is_put ⟨[.put [1] [2]], 0, 0, false⟩ [1]).2⟩

/-- C9: the claim states that a zero-length chunk from the engine makes the
chunked-read loops stop and return the bytes accumulated so far; instead the
`blen == 0` test compares the cffi out-pointer itself with the integer 0
(which is always False), so when the engine has no further data the loops
never terminate, for any amount of fuel. -/
theorem C9_zero_chunk_loops_forever :
    (∀ fuel res, chunk_loop sparkey_logiter_valuechunk fuel [] 5 res = none) ∧
    (∀ fuel, chunk_with_func sparkey_logiter_valuechunk fuel 5 [] = none) ∧
    (∀ fuel, HashReader.value_chunk_impl fuel 5 [] = none) ∧
    blen_eq_zero = false := by
  have hloop : ∀ fuel res,
      chunk_loop sparkey_logiter_valuechunk fuel [] 5 res = none := by
    intro fuel
    induction fuel with
    | zero =>
        intro res
        rw [chunk_loop]
    | succ n ih =>
        intro res
        rw [chunk_loop, if_pos (by omega)]
        simp only [sparkey_logiter_valuechunk, blen_eq_zero, if_false,
          Bool.false_eq_true]
        simpa using ih res
  exact ⟨hloop, fun fuel => hloop fuel [], fun fuel => hloop fuel [], rfl⟩

/-- C10: `HashWriter.destroy` closes the underlying `LogWriter` via
`LogWriter.close`, which flushes pending records, so log records appended
since the last flush are still persisted to the log file by `destroy`; only
the hash file is left without a rebuild — contrary to the docstring of
`destroy`. -/
theorem C10_destroy_persists_pending (ew : EngineWriter) (lf : LogFileC)
    (hf : Option (List LogRecord)) (io : Bool) :
    HashWriter.destroy ⟨some ⟨some (some ew)⟩⟩ ⟨some lf, hf, io⟩ =
      (⟨none⟩, ⟨some { lf with records := lf.records ++ ew.pending }, hf, io⟩) := by
  simp [HashWriter.destroy, LogWriter.close, sparkey_logwriter_close,
    sparkey_logwriter_flush]
